import Mathlib

/-!
Verification development for the ping-pong ranking engine
(`calculate_rankings` and its helpers in `main.py`).

The engine is a day-by-day fold over a table of matches. Scores live in a
Python dict (insertion-ordered association of player name to integer score);
we model it as an association list `List (String × Int)` whose order is the
dict's insertion order. Python's `sorted(..., reverse=True)` is a stable
descending sort; we model it with a stable insertion sort. Missing player
names (`NaN` cells) are modelled as `none`.
-/

/-- Scoring constants from the source (`PONTOS_VITORIA` etc.). -/
def PONTOS_VITORIA : Int := 10

def PONTOS_DERROTA : Int := -10

def PONTOS_INICIAIS : Int := 1000

def BONUS_TOP_1 : Int := 25

def BONUS_TOP_2 : Int := 20

def BONUS_TOP_3 : Int := 15

def BONUS_UPSET : Int := 5

/-- One row of the match table: `ID_Partida`, `Data`, `Jogador_1`, `Jogador_2`,
`Resultado_J1`, `Resultado_J2`. Dates are abstracted to `Nat` (only equality
and ordering of dates matter to the engine); a `NaN` player cell is `none`. -/
structure Partida where
  idPartida : Nat
  data : Nat
  jogador1 : Option String
  jogador2 : Option String
  resultado1 : Int
  resultado2 : Int
deriving DecidableEq, Repr

/-- `d.get(k, deflt)` on the score dict. -/
def lookupD (l : List (String × Int)) (k : String) (deflt : Int) : Int :=
  ((l.find? (fun p => p.1 = k)).map Prod.snd).getD deflt

/-- Membership of a key in the dict. -/
def contem (l : List (String × Int)) (k : String) : Bool :=
  l.any (fun p => p.1 = k)

/-- `d[k] += v` on the dict. The engine only ever applies this to keys that
are present (every non-null participant is in `jogadores`, hence a key of
`pontuacoes` and of `pontos_ganhos_dia`); on an absent key we leave the list
unchanged. -/
def updAdd (l : List (String × Int)) (k : String) (v : Int) : List (String × Int) :=
  l.map (fun p => if p.1 = k then (p.1, p.2 + v) else p)

/-- `d[k] = v` on the dict: update in place when the key is present,
append otherwise (Python dict assignment inserts at the end). -/
def updSet (l : List (String × Int)) (k : String) (v : Int) : List (String × Int) :=
  if contem l k then l.map (fun p => if p.1 = k then (p.1, v) else p)
  else l ++ [(k, v)]

/-- Stable insertion step for the descending-by-score sort: an element is
placed before the first entry whose score is not larger, so earlier entries
win ties, matching Python's stable `sorted(..., key=score, reverse=True)`. -/
def insereDesc (x : String × Int) : List (String × Int) → List (String × Int)
  | [] => [x]
  | y :: ys => if x.2 ≥ y.2 then x :: y :: ys else y :: insereDesc x ys

/-- `sorted(pontuacoes.items(), key=lambda item: item[1], reverse=True)`:
stable descending sort by score. -/
def sortDesc : List (String × Int) → List (String × Int)
  | [] => []
  | x :: xs => insereDesc x (sortDesc xs)

/-- Stable insertion step for the ascending-by-`ID_Partida` sort. -/
def insereId (x : Partida) : List Partida → List Partida
  | [] => [x]
  | y :: ys => if x.idPartida ≤ y.idPartida then x :: y :: ys else y :: insereId x ys

/-- `df.sort_values(by=ID_Partida)` for the selected day's rows, modelled as
a stable ascending sort by match id. -/
def ordenaPorId : List Partida → List Partida
  | [] => []
  | x :: xs => insereId x (ordenaPorId xs)

/-- Stable insertion step for the ascending sort of the distinct dates. -/
def insereAsc (x : Nat) : List Nat → List Nat
  | [] => [x]
  | y :: ys => if x ≤ y then x :: y :: ys else y :: insereAsc x ys

/-- `sorted(df[Data].unique())`: ascending sort of the distinct dates. -/
def sortAsc : List Nat → List Nat
  | [] => []
  | x :: xs => insereAsc x (sortAsc xs)

/-- `pd.unique`: keep the first occurrence of each element, in order. -/
def uniqueFirst {α : Type} [DecidableEq α] (l : List α) : List α :=
  l.foldl (fun acc x => if x ∈ acc then acc else acc ++ [x]) []

/-- `df[[Jogador_1, Jogador_2]].values.ravel(K)`: the two player columns
interleaved in row-major order. -/
def ravelK (df : List Partida) : List (Option String) :=
  df.foldr (fun m acc => m.jogador1 :: m.jogador2 :: acc) []

/-- `(j1, j2) if res1 > res2 else (j2, j1)`: winner/loser selection. -/
def vencedorPerdedor (j1 j2 : String) (r1 r2 : Int) : String × String :=
  if r1 > r2 then (j1, j2) else (j2, j1)

/-- Winner's gain for the match, as computed in lines 132-141 of the source:
base `PONTOS_VITORIA`, plus `BONUS_UPSET` when the winner's pre-day rank is
numerically larger (worse) than the loser's, plus the single matching top-3
tier for the loser's pre-day rank. -/
def pontosVencedorCalc (rankVencedor rankPerdedor : Nat) : Int :=
  let p := PONTOS_VITORIA
  let p := if rankVencedor > rankPerdedor then p + BONUS_UPSET else p
  if rankPerdedor = 1 then p + BONUS_TOP_1
  else if rankPerdedor = 2 then p + BONUS_TOP_2
  else if rankPerdedor = 3 then p + BONUS_TOP_3
  else p

/-- The rank dict `{jogador: i + 1 for i, (jogador, _) in enumerate(...)}`
built with 1-based positions starting at `k`. -/
def mapaRankingFrom (k : Nat) : List (String × Int) → List (String × Nat)
  | [] => []
  | p :: ps => (p.1, k) :: mapaRankingFrom (k + 1) ps

/-- `mapa_ranking_anterior`: player to 1-based position in the pre-day
descending sort of the current scores. -/
def mapaRankingAnterior (pont : List (String × Int)) : List (String × Nat) :=
  mapaRankingFrom 1 (sortDesc pont)

/-- `mapa_ranking_anterior.get(j, deflt)` where the engine passes
`len(jogadores) + 1` as the default. -/
def rankLookup (mapa : List (String × Nat)) (deflt : Nat) (j : String) : Nat :=
  ((mapa.find? (fun e => e.1 = j)).map Prod.snd).getD deflt

/-- The mutable state inside one day's loop: the global score dict and the
day's delta dict `pontos_ganhos_dia`. -/
structure EstadoDia where
  pontuacoes : List (String × Int)
  pontosGanhosDia : List (String × Int)
deriving DecidableEq, Repr

/-- The body of the per-match loop (lines 118-150 of the source): skip the
match when a participant is missing; otherwise pick winner and loser, look
up their pre-day ranks, compute the winner's gain, apply the gain to the
winner, apply the loss to the loser clamped at zero, and accumulate both
unclamped deltas in `pontos_ganhos_dia`. -/
def aplicaPartida (numJogadores : Nat) (mapa : List (String × Nat))
    (st : EstadoDia) (m : Partida) : EstadoDia :=
  match m.jogador1, m.jogador2 with
  | some j1, some j2 =>
    let vp := vencedorPerdedor j1 j2 m.resultado1 m.resultado2
    let vencedor := vp.1
    let perdedor := vp.2
    let rankVencedor := rankLookup mapa (numJogadores + 1) vencedor
    let rankPerdedor := rankLookup mapa (numJogadores + 1) perdedor
    let pontosVencedor := pontosVencedorCalc rankVencedor rankPerdedor
    let pontosPerdedor := PONTOS_DERROTA
    let pont1 := updAdd st.pontuacoes vencedor pontosVencedor
    let pont2 := updSet pont1 perdedor (max 0 (lookupD pont1 perdedor 0 + pontosPerdedor))
    let g1 := updAdd st.pontosGanhosDia vencedor pontosVencedor
    let g2 := updAdd g1 perdedor pontosPerdedor
    { pontuacoes := pont2, pontosGanhosDia := g2 }
  | _, _ => st

/-- One day of the fold (lines 105-150): reset the per-day delta dict, take
the pre-day ranking snapshot, select and id-sort the day's matches, and fold
the per-match body over them. The rank map is computed once, before any of
the day's matches. -/
def processaDia (numJogadores : Nat) (df : List Partida)
    (pont : List (String × Int)) (dataAtual : Nat) : EstadoDia :=
  let ganhos0 := pont.map (fun p => (p.1, (0 : Int)))
  let mapa := mapaRankingAnterior pont
  let partidasDoDia := ordenaPorId (df.filter (fun m => m.data = dataAtual))
  partidasDoDia.foldl (aplicaPartida numJogadores mapa) ⟨pont, ganhos0⟩

/-- The loop over the sorted distinct dates: after each day, record the
descending-sorted standings in `rankings_diarios` and the day's deltas in
`stats_diarias`, and carry the score dict to the next day. -/
def loopDatas (numJogadores : Nat) (df : List Partida) :
    List Nat → List (String × Int) →
    List (Nat × List (String × Int)) × List (Nat × List (String × Int)) × List (String × Int)
  | [], pont => ([], [], pont)
  | d :: ds, pont =>
    let st := processaDia numJogadores df pont d
    let r := loopDatas numJogadores df ds st.pontuacoes
    ((d, sortDesc st.pontuacoes) :: r.1, (d, st.pontosGanhosDia) :: r.2.1, r.2.2)

/-- Spec-side description of one match's contribution to a player's per-day
delta, computed from a FIXED rank map: the winner's entry receives the full
computed gain and the loser's entry receives the raw `PONTOS_DERROTA`. Used
to state that the engine's per-day deltas decompose as a sum over the day's
matches with the pre-day rank map held constant. -/
def contribuicaoGanho (numJogadores : Nat) (mapa : List (String × Nat))
    (j : String) (m : Partida) : Int :=
  match m.jogador1, m.jogador2 with
  | some j1, some j2 =>
    let vp := vencedorPerdedor j1 j2 m.resultado1 m.resultado2
    (if vp.1 = j then
      pontosVencedorCalc (rankLookup mapa (numJogadores + 1) vp.1)
        (rankLookup mapa (numJogadores + 1) vp.2)
     else 0)
      + (if vp.2 = j then PONTOS_DERROTA else 0)
  | _, _ => 0

/-- `calculate_rankings` (lines 85-157): empty input returns empty outputs;
otherwise gather the player universe, initialise every named player to
`PONTOS_INICIAIS`, and fold over the distinct dates in ascending order.
Returns (`rankings_diarios`, `stats_diarias`, the input table); the
`stats_diarias` entry for a date is its `pontos_ganhos` dict. -/
def calculate_rankings (df : List Partida) :
    List (Nat × List (String × Int)) × List (Nat × List (String × Int)) × List Partida :=
  if df.isEmpty then ([], [], [])
  else
    let jogadores := uniqueFirst (ravelK df)
    let pont0 := (jogadores.filterMap id).map (fun j => (j, PONTOS_INICIAIS))
    let datasUnicas := sortAsc (uniqueFirst (df.map (fun m => m.data)))
    let r := loopDatas jogadores.length df datasUnicas pont0
    (r.1, r.2.1, df)

/-! ### Basic lemmas about the dict operations -/

theorem lookupD_cons (p : String × Int) (ps : List (String × Int)) (j : String) (d : Int) :
    lookupD (p :: ps) j d = if p.1 = j then p.2 else lookupD ps j d := by
  by_cases h : p.1 = j
  · simp [lookupD, List.find?_cons_of_pos, h]
  · simp [lookupD, List.find?_cons_of_neg, h]

theorem contem_cons (p : String × Int) (ps : List (String × Int)) (k : String) :
    contem (p :: ps) k = (decide (p.1 = k) || contem ps k) := by
  simp [contem]

theorem updAdd_cons (p : String × Int) (ps : List (String × Int)) (k : String) (v : Int) :
    updAdd (p :: ps) k v
      = (if p.1 = k then (p.1, p.2 + v) else p) :: updAdd ps k v := rfl

theorem updAdd_keys (l : List (String × Int)) (k : String) (v : Int) :
    (updAdd l k v).map Prod.fst = l.map Prod.fst := by
  induction l with
  | nil => rfl
  | cons p ps ih =>
    rw [updAdd_cons, List.map_cons, List.map_cons, ih]
    by_cases h : p.1 = k <;> simp [h]

theorem contem_iff (l : List (String × Int)) (k : String) :
    contem l k = true ↔ k ∈ l.map Prod.fst := by
  induction l with
  | nil => simp [contem]
  | cons p ps ih =>
    rw [contem_cons, List.map_cons]
    by_cases h : p.1 = k
    · simp [h]
    · have h2 : ¬ k = p.1 := fun he => h he.symm
      simp [h, h2, ih]

theorem contem_congr {l1 l2 : List (String × Int)} (k : String)
    (h : l1.map Prod.fst = l2.map Prod.fst) : contem l1 k = contem l2 k := by
  cases h1 : contem l1 k <;> cases h2 : contem l2 k
  · rfl
  · exfalso
    have hk : k ∈ l2.map Prod.fst := (contem_iff l2 k).mp h2
    rw [← h] at hk
    have hc := (contem_iff l1 k).mpr hk
    rw [h1] at hc
    exact Bool.false_ne_true hc
  · exfalso
    have hk : k ∈ l1.map Prod.fst := (contem_iff l1 k).mp h1
    rw [h] at hk
    have hc := (contem_iff l2 k).mpr hk
    rw [h2] at hc
    exact Bool.false_ne_true hc
  · rfl

theorem contem_updAdd (l : List (String × Int)) (k j : String) (v : Int) :
    contem (updAdd l k v) j = contem l j :=
  contem_congr j (updAdd_keys l k v)

theorem lookupD_updAdd_ne (l : List (String × Int)) (k j : String) (v d : Int)
    (h : j ≠ k) : lookupD (updAdd l k v) j d = lookupD l j d := by
  induction l with
  | nil => rfl
  | cons p ps ih =>
    rw [updAdd_cons, lookupD_cons, lookupD_cons]
    have hkj : ¬ k = j := fun he => h he.symm
    by_cases hpk : p.1 = k
    · simp [hpk, hkj, h, ih]
    · by_cases hpj : p.1 = j <;> simp [hpk, hpj, hkj, h, ih]

theorem lookupD_updAdd_self (l : List (String × Int)) (k : String) (v d : Int)
    (h : contem l k = true) :
    lookupD (updAdd l k v) k d = lookupD l k d + v := by
  induction l with
  | nil => simp [contem] at h
  | cons p ps ih =>
    rw [updAdd_cons, lookupD_cons, lookupD_cons]
    by_cases hpk : p.1 = k
    · simp [hpk]
    · rw [contem_cons] at h
      have h2 : contem ps k = true := by
        rcases Bool.or_eq_true_iff.mp h with h1 | h1
        · exact absurd (of_decide_eq_true h1) hpk
        · exact h1
      simp [hpk, ih h2]

theorem lookupD_mapSet_self (l : List (String × Int)) (k : String) (v d : Int)
    (h : contem l k = true) :
    lookupD (l.map (fun p => if p.1 = k then (p.1, v) else p)) k d = v := by
  induction l with
  | nil => simp [contem] at h
  | cons p ps ih =>
    rw [List.map_cons, lookupD_cons]
    by_cases hpk : p.1 = k
    · simp [hpk]
    · rw [contem_cons] at h
      have h2 : contem ps k = true := by
        rcases Bool.or_eq_true_iff.mp h with h1 | h1
        · exact absurd (of_decide_eq_true h1) hpk
        · exact h1
      simp [hpk, ih h2]

theorem lookupD_mapSet_ne (l : List (String × Int)) (k j : String) (v d : Int)
    (h : j ≠ k) :
    lookupD (l.map (fun p => if p.1 = k then (p.1, v) else p)) j d = lookupD l j d := by
  induction l with
  | nil => rfl
  | cons p ps ih =>
    rw [List.map_cons, lookupD_cons, lookupD_cons]
    have hkj : ¬ k = j := fun he => h he.symm
    by_cases hpk : p.1 = k
    · simp [hpk, hkj, h, ih]
    · by_cases hpj : p.1 = j <;> simp [hpk, hpj, hkj, h, ih]

theorem lookupD_append_of_not_contem (l l2 : List (String × Int)) (j : String) (d : Int)
    (h : contem l j = false) :
    lookupD (l ++ l2) j d = lookupD l2 j d := by
  induction l with
  | nil => rfl
  | cons p ps ih =>
    rw [contem_cons] at h
    rw [List.cons_append, lookupD_cons]
    rcases Bool.or_eq_false_iff.mp h with ⟨h1, h2⟩
    simp only [decide_eq_false_iff_not] at h1
    simp [h1, ih h2]

theorem lookupD_updSet_self (l : List (String × Int)) (k : String) (v d : Int) :
    lookupD (updSet l k v) k d = v := by
  unfold updSet
  by_cases h : contem l k = true
  · simp only [h, if_true]
    exact lookupD_mapSet_self l k v d h
  · have hf : contem l k = false := Bool.eq_false_iff.mpr h
    simp only [hf, Bool.false_eq_true, if_false]
    rw [lookupD_append_of_not_contem l _ k d hf, lookupD_cons]
    simp

theorem lookupD_append_single_ne (l : List (String × Int)) (k j : String) (v d : Int)
    (h : j ≠ k) : lookupD (l ++ [(k, v)]) j d = lookupD l j d := by
  induction l with
  | nil =>
    rw [List.nil_append, lookupD_cons]
    have hkj : ¬ k = j := fun he => h he.symm
    simp [hkj]
  | cons p ps ih =>
    rw [List.cons_append, lookupD_cons, lookupD_cons, ih]

theorem lookupD_updSet_ne (l : List (String × Int)) (k j : String) (v d : Int)
    (h : j ≠ k) : lookupD (updSet l k v) j d = lookupD l j d := by
  unfold updSet
  by_cases hc : contem l k = true
  · simp only [hc, if_true]
    exact lookupD_mapSet_ne l k j v d h
  · have hf : contem l k = false := Bool.eq_false_iff.mpr hc
    simp only [hf, Bool.false_eq_true, if_false]
    exact lookupD_append_single_ne l k j v d h

/-! ### The winner's gain -/

/-- The winner's gain is at least the base 10 points: both bonuses only add
non-negative amounts. Used for the non-negativity invariant. -/
theorem pontosVencedorCalc_ge_ten (rv rp : Nat) : 10 ≤ pontosVencedorCalc rv rp := by
  simp only [pontosVencedorCalc, PONTOS_VITORIA, BONUS_UPSET, BONUS_TOP_1,
    BONUS_TOP_2, BONUS_TOP_3]
  split_ifs <;> omega

/-- C1: the winner's gain equals the base 10 points, plus 5 exactly when the
winner's pre-day rank number is strictly greater (worse) than the loser's,
plus exactly one of 25/20/15 when the loser's pre-day rank is 1/2/3, all
added together; and when the loser's pre-day rank is 1 and the winner's is
worse than 1, the gain is exactly 40. -/
theorem C1_ganho_vencedor (rv rp : Nat) :
    pontosVencedorCalc rv rp =
      10 + (if rp < rv then 5 else 0)
        + (if rp = 1 then 25 else if rp = 2 then 20 else if rp = 3 then 15 else 0)
      ∧ (rp = 1 → 1 < rv → pontosVencedorCalc rv rp = 40) := by
  constructor
  · simp only [pontosVencedorCalc, PONTOS_VITORIA, BONUS_UPSET, BONUS_TOP_1,
      BONUS_TOP_2, BONUS_TOP_3, gt_iff_lt]
    split_ifs <;> omega
  · intro h1 h2
    simp only [pontosVencedorCalc, PONTOS_VITORIA, BONUS_UPSET, BONUS_TOP_1,
      BONUS_TOP_2, BONUS_TOP_3, h1, gt_iff_lt]
    simp [h2]

/-- Witness for C1 at winner rank 5, loser rank 1. -/
theorem C1_ganho_vencedor_witness : pontosVencedorCalc 5 1 = 40 :=
  (C1_ganho_vencedor 5 1).2 rfl (by decide)

/-- C7: the empty match table yields empty outputs and no error (the
embedded engine is a total function). -/
theorem C7_tabela_vazia : calculate_rankings [] = ([], [], []) := rfl

/-- Helper: the per-match body leaves the state unchanged when a
participant is missing (the `continue` at line 121 of the source). -/
theorem aplicaPartida_ausente (n : Nat) (mapa : List (String × Nat))
    (st : EstadoDia) (m : Partida)
    (h : m.jogador1 = none ∨ m.jogador2 = none) :
    aplicaPartida n mapa st m = st := by
  unfold aplicaPartida
  rcases h with h | h
  · rw [h]
  · rw [h]
    cases m.jogador1 <;> rfl

/-- C6: a match with a missing participant is skipped: the per-match body
returns the state unchanged, so no score and no delta entry moves, and no
error is raised (the body is total). -/
theorem C6_participante_ausente (n : Nat) (mapa : List (String × Nat))
    (st : EstadoDia) (m : Partida)
    (h : m.jogador1 = none ∨ m.jogador2 = none) :
    aplicaPartida n mapa st m = st :=
  aplicaPartida_ausente n mapa st m h

/-- Witness for C6: a concrete match with a missing first participant. -/
theorem C6_participante_ausente_witness :
    aplicaPartida 2 [("B", 1)] ⟨[("B", 1000)], [("B", 0)]⟩
      ⟨7, 3, none, some "B", 11, 2⟩ = ⟨[("B", 1000)], [("B", 0)]⟩ :=
  C6_participante_ausente 2 [("B", 1)] ⟨[("B", 1000)], [("B", 0)]⟩
    ⟨7, 3, none, some "B", 11, 2⟩ (Or.inl rfl)

/-- C9: the engine is deterministic: identical inputs give identical
outputs. In this embedding `calculate_rankings` is a pure function (all
sorts are modelled as deterministic stable sorts), so two runs on the same
table agree definitionally. -/
theorem C9_determinismo (df df2 : List Partida) (h : df = df2) :
    calculate_rankings df = calculate_rankings df2 := by rw [h]

/-- Witness for C9 at a concrete one-match table. -/
theorem C9_determinismo_witness :
    calculate_rankings [⟨1, 1, some "A", some "B", 11, 5⟩]
      = calculate_rankings [⟨1, 1, some "A", some "B", 11, 5⟩] :=
  C9_determinismo [⟨1, 1, some "A", some "B", 11, 5⟩]
    [⟨1, 1, some "A", some "B", 11, 5⟩] rfl

/-! ### The per-match state update, named -/

/-- Unfolding equation for `aplicaPartida` when both participants are
present, with the winner, loser and gain given names. -/
theorem aplicaPartida_eq (n : Nat) (mapa : List (String × Nat)) (st : EstadoDia)
    (m : Partida) (j1 j2 v p : String) (pv : Int)
    (h1 : m.jogador1 = some j1) (h2 : m.jogador2 = some j2)
    (hvp : vencedorPerdedor j1 j2 m.resultado1 m.resultado2 = (v, p))
    (hpv : pv = pontosVencedorCalc (rankLookup mapa (n + 1) v)
      (rankLookup mapa (n + 1) p)) :
    aplicaPartida n mapa st m =
      { pontuacoes :=
          updSet (updAdd st.pontuacoes v pv) p
            (max 0 (lookupD (updAdd st.pontuacoes v pv) p 0 + PONTOS_DERROTA)),
        pontosGanhosDia :=
          updAdd (updAdd st.pontosGanhosDia v pv) p PONTOS_DERROTA } := by
  unfold aplicaPartida
  rw [h1, h2]
  dsimp only
  rw [hvp, hpv]

/-- C4: the per-day delta record accumulates the unclamped per-event
amounts: the winner's entry receives the full computed gain, the loser's
entry receives the raw `PONTOS_DERROTA`, for every score state (in
particular also when the zero-floor clamp truncates the stored loss). -/
theorem C4_deltas_nao_clampados (n : Nat) (mapa : List (String × Nat))
    (st : EstadoDia) (m : Partida) (j1 j2 v p : String)
    (h1 : m.jogador1 = some j1) (h2 : m.jogador2 = some j2)
    (hvp : vencedorPerdedor j1 j2 m.resultado1 m.resultado2 = (v, p))
    (hne : v ≠ p)
    (hv : contem st.pontosGanhosDia v = true)
    (hp : contem st.pontosGanhosDia p = true) :
    lookupD (aplicaPartida n mapa st m).pontosGanhosDia v 0
      = lookupD st.pontosGanhosDia v 0
        + pontosVencedorCalc (rankLookup mapa (n + 1) v) (rankLookup mapa (n + 1) p)
    ∧ lookupD (aplicaPartida n mapa st m).pontosGanhosDia p 0
      = lookupD st.pontosGanhosDia p 0 + PONTOS_DERROTA := by
  rw [aplicaPartida_eq n mapa st m j1 j2 v p _ h1 h2 hvp rfl]
  constructor
  · rw [lookupD_updAdd_ne _ p v _ _ hne, lookupD_updAdd_self _ v _ _ hv]
  · rw [lookupD_updAdd_self _ p _ _ ((contem_updAdd _ v p _).trans hp)]
    rw [lookupD_updAdd_ne _ v p _ _ (fun he => hne he.symm)]

/-- Witness for C4: A (1000 points) beats B (5 points); the clamp makes B's
stored score change only -5 (to 0), yet B's recorded delta is the raw -10
and A's is the full +35 gain. -/
theorem C4_deltas_nao_clampados_witness :
    (lookupD (aplicaPartida 2 (mapaRankingAnterior [("A", 1000), ("B", 5)])
        ⟨[("A", 1000), ("B", 5)], [("A", 0), ("B", 0)]⟩
        ⟨1, 1, some "A", some "B", 11, 5⟩).pontosGanhosDia "A" 0
      = lookupD [("A", 0), ("B", 0)] "A" 0
        + pontosVencedorCalc
            (rankLookup (mapaRankingAnterior [("A", 1000), ("B", 5)]) 3 "A")
            (rankLookup (mapaRankingAnterior [("A", 1000), ("B", 5)]) 3 "B")
      ∧ lookupD (aplicaPartida 2 (mapaRankingAnterior [("A", 1000), ("B", 5)])
          ⟨[("A", 1000), ("B", 5)], [("A", 0), ("B", 0)]⟩
          ⟨1, 1, some "A", some "B", 11, 5⟩).pontosGanhosDia "B" 0
        = lookupD [("A", 0), ("B", 0)] "B" 0 + PONTOS_DERROTA)
    ∧ lookupD (aplicaPartida 2 (mapaRankingAnterior [("A", 1000), ("B", 5)])
        ⟨[("A", 1000), ("B", 5)], [("A", 0), ("B", 0)]⟩
        ⟨1, 1, some "A", some "B", 11, 5⟩).pontuacoes "B" 0 = 0 :=
  ⟨C4_deltas_nao_clampados 2 (mapaRankingAnterior [("A", 1000), ("B", 5)])
      ⟨[("A", 1000), ("B", 5)], [("A", 0), ("B", 0)]⟩
      ⟨1, 1, some "A", some "B", 11, 5⟩ "A" "B" "A" "B"
      rfl rfl (by decide) (by decide) (by decide) (by decide),
    by decide⟩

/-- C5: the winner is decided by the single comparison `res1 > res2`: player
1 wins exactly when their score is strictly greater; in every other case,
including exact ties, player 2 is declared winner and the match is scored as
such (gain applied to player 2's score, clamped loss to player 1's). -/
theorem C5_empate_joga_para_j2 (n : Nat) (mapa : List (String × Nat))
    (st : EstadoDia) (m : Partida) (j1 j2 : String)
    (h1 : m.jogador1 = some j1) (h2 : m.jogador2 = some j2)
    (hne : j1 ≠ j2) (hk : contem st.pontuacoes j2 = true) :
    (∀ r1 r2 : Int, ((vencedorPerdedor j1 j2 r1 r2).1 = j1 ↔ r2 < r1))
    ∧ (m.resultado1 = m.resultado2 →
        lookupD (aplicaPartida n mapa st m).pontuacoes j2 0
          = lookupD st.pontuacoes j2 0
            + pontosVencedorCalc (rankLookup mapa (n + 1) j2) (rankLookup mapa (n + 1) j1)
        ∧ lookupD (aplicaPartida n mapa st m).pontuacoes j1 0
          = max 0 (lookupD st.pontuacoes j1 0 + PONTOS_DERROTA)) := by
  constructor
  · intro r1 r2
    unfold vencedorPerdedor
    by_cases hr : r2 < r1
    · simp [hr]
    · simp [hr]
      intro he
      exact absurd he.symm hne
  · intro htie
    have hvp : vencedorPerdedor j1 j2 m.resultado1 m.resultado2 = (j2, j1) := by
      unfold vencedorPerdedor
      rw [htie]
      simp
    rw [aplicaPartida_eq n mapa st m j1 j2 j2 j1 _ h1 h2 hvp rfl]
    constructor
    · rw [lookupD_updSet_ne _ j1 j2 _ _ (fun he => hne he.symm),
        lookupD_updAdd_self _ j2 _ _ hk]
    · rw [lookupD_updSet_self, lookupD_updAdd_ne _ j2 j1 _ _ hne]

/-- Witness for C5: a 7-7 tie between A and B is scored as a win for B. -/
theorem C5_empate_joga_para_j2_witness :
    (∀ r1 r2 : Int, ((vencedorPerdedor "A" "B" r1 r2).1 = "A" ↔ r2 < r1))
    ∧ ((7 : Int) = 7 →
        lookupD (aplicaPartida 2 (mapaRankingAnterior [("A", 1000), ("B", 1000)])
            ⟨[("A", 1000), ("B", 1000)], [("A", 0), ("B", 0)]⟩
            ⟨1, 1, some "A", some "B", 7, 7⟩).pontuacoes "B" 0
          = lookupD [("A", 1000), ("B", 1000)] "B" 0
            + pontosVencedorCalc
                (rankLookup (mapaRankingAnterior [("A", 1000), ("B", 1000)]) 3 "B")
                (rankLookup (mapaRankingAnterior [("A", 1000), ("B", 1000)]) 3 "A")
        ∧ lookupD (aplicaPartida 2 (mapaRankingAnterior [("A", 1000), ("B", 1000)])
            ⟨[("A", 1000), ("B", 1000)], [("A", 0), ("B", 0)]⟩
            ⟨1, 1, some "A", some "B", 7, 7⟩).pontuacoes "A" 0
          = max 0 (lookupD [("A", 1000), ("B", 1000)] "A" 0 + PONTOS_DERROTA)) :=
  C5_empate_joga_para_j2 2 (mapaRankingAnterior [("A", 1000), ("B", 1000)])
    ⟨[("A", 1000), ("B", 1000)], [("A", 0), ("B", 0)]⟩
    ⟨1, 1, some "A", some "B", 7, 7⟩ "A" "B" rfl rfl (by decide) (by decide)

/-! ### Permutation and sortedness of the stable sorts -/

theorem insereDesc_perm (x : String × Int) (l : List (String × Int)) :
    List.Perm (insereDesc x l) (x :: l) := by
  induction l with
  | nil => exact List.Perm.refl _
  | cons y ys ih =>
    unfold insereDesc
    by_cases h : x.2 ≥ y.2
    · simp only [h, if_true]
      exact List.Perm.refl _
    · simp only [h, if_false]
      exact (List.Perm.cons y ih).trans (List.Perm.swap x y ys)

theorem sortDesc_perm (l : List (String × Int)) : List.Perm (sortDesc l) l := by
  induction l with
  | nil => exact List.Perm.refl _
  | cons x xs ih =>
    exact (insereDesc_perm x (sortDesc xs)).trans (List.Perm.cons x ih)

theorem insereId_perm (x : Partida) (l : List Partida) :
    List.Perm (insereId x l) (x :: l) := by
  induction l with
  | nil => exact List.Perm.refl _
  | cons y ys ih =>
    unfold insereId
    by_cases h : x.idPartida ≤ y.idPartida
    · simp only [h, if_true]
      exact List.Perm.refl _
    · simp only [h, if_false]
      exact (List.Perm.cons y ih).trans (List.Perm.swap x y ys)

theorem ordenaPorId_perm (l : List Partida) : List.Perm (ordenaPorId l) l := by
  induction l with
  | nil => exact List.Perm.refl _
  | cons x xs ih =>
    exact (insereId_perm x (ordenaPorId xs)).trans (List.Perm.cons x ih)

theorem insereDesc_sorted (x : String × Int) (l : List (String × Int))
    (h : List.Pairwise (fun a b : String × Int => b.2 ≤ a.2) l) :
    List.Pairwise (fun a b : String × Int => b.2 ≤ a.2) (insereDesc x l) := by
  induction l with
  | nil => exact List.pairwise_singleton _ x
  | cons y ys ih =>
    rcases List.pairwise_cons.mp h with ⟨hy, hys⟩
    unfold insereDesc
    by_cases hx : x.2 ≥ y.2
    · simp only [hx, if_true]
      refine List.pairwise_cons.mpr ⟨?_, h⟩
      intro b hb
      rcases List.mem_cons.mp hb with hb | hb
      · rw [hb]; exact hx
      · exact le_trans (hy b hb) hx
    · simp only [hx, if_false]
      refine List.pairwise_cons.mpr ⟨?_, ih hys⟩
      intro b hb
      have hb2 := (insereDesc_perm x ys).mem_iff.mp hb
      rcases List.mem_cons.mp hb2 with hb2 | hb2
      · rw [hb2]; exact le_of_not_le hx
      · exact hy b hb2

theorem sortDesc_sorted (l : List (String × Int)) :
    List.Pairwise (fun a b : String × Int => b.2 ≤ a.2) (sortDesc l) := by
  induction l with
  | nil => exact List.Pairwise.nil
  | cons x xs ih => exact insereDesc_sorted x (sortDesc xs) ih

theorem insereId_sorted (x : Partida) (l : List Partida)
    (h : List.Pairwise (fun a b : Partida => a.idPartida ≤ b.idPartida) l) :
    List.Pairwise (fun a b : Partida => a.idPartida ≤ b.idPartida) (insereId x l) := by
  induction l with
  | nil => exact List.pairwise_singleton _ x
  | cons y ys ih =>
    rcases List.pairwise_cons.mp h with ⟨hy, hys⟩
    unfold insereId
    by_cases hx : x.idPartida ≤ y.idPartida
    · simp only [hx, if_true]
      refine List.pairwise_cons.mpr ⟨?_, h⟩
      intro b hb
      rcases List.mem_cons.mp hb with hb | hb
      · rw [hb]; exact hx
      · exact le_trans hx (hy b hb)
    · simp only [hx, if_false]
      refine List.pairwise_cons.mpr ⟨?_, ih hys⟩
      intro b hb
      have hb2 := (insereId_perm x ys).mem_iff.mp hb
      rcases List.mem_cons.mp hb2 with hb2 | hb2
      · rw [hb2]; exact le_of_not_le hx
      · exact hy b hb2

theorem ordenaPorId_sorted (l : List Partida) :
    List.Pairwise (fun a b : Partida => a.idPartida ≤ b.idPartida) (ordenaPorId l) := by
  induction l with
  | nil => exact List.Pairwise.nil
  | cons x xs ih => exact insereId_sorted x (ordenaPorId xs) ih

/-! ### Non-negativity of stored scores -/

theorem nonneg_updAdd (l : List (String × Int)) (k : String) (v : Int)
    (hl : ∀ q ∈ l, 0 ≤ q.2) (hv : 0 ≤ v) : ∀ q ∈ updAdd l k v, 0 ≤ q.2 := by
  intro q hq
  rcases List.mem_map.mp hq with ⟨p, hp, he⟩
  by_cases h : p.1 = k
  · rw [← he]
    simp only [h, if_true]
    exact add_nonneg (hl p hp) hv
  · rw [← he]
    simp only [h, if_false]
    exact hl p hp

theorem nonneg_updSet (l : List (String × Int)) (k : String) (v : Int)
    (hl : ∀ q ∈ l, 0 ≤ q.2) (hv : 0 ≤ v) : ∀ q ∈ updSet l k v, 0 ≤ q.2 := by
  intro q hq
  unfold updSet at hq
  by_cases hc : contem l k = true
  · rw [if_pos hc] at hq
    rcases List.mem_map.mp hq with ⟨p, hp, he⟩
    by_cases h : p.1 = k
    · rw [← he]
      simp only [h, if_true]
      exact hv
    · rw [← he]
      simp only [h, if_false]
      exact hl p hp
  · rw [if_neg hc] at hq
    rcases List.mem_append.mp hq with hq | hq
    · exact hl q hq
    · rcases List.mem_singleton.mp hq with rfl
      exact hv

theorem nonneg_aplicaPartida (n : Nat) (mapa : List (String × Nat))
    (st : EstadoDia) (m : Partida) (h : ∀ q ∈ st.pontuacoes, 0 ≤ q.2) :
    ∀ q ∈ (aplicaPartida n mapa st m).pontuacoes, 0 ≤ q.2 := by
  cases hm1 : m.jogador1 with
  | none =>
    rw [aplicaPartida_ausente n mapa st m (Or.inl hm1)]
    exact h
  | some j1 =>
    cases hm2 : m.jogador2 with
    | none =>
      rw [aplicaPartida_ausente n mapa st m (Or.inr hm2)]
      exact h
    | some j2 =>
      rw [aplicaPartida_eq n mapa st m j1 j2
        (vencedorPerdedor j1 j2 m.resultado1 m.resultado2).1
        (vencedorPerdedor j1 j2 m.resultado1 m.resultado2).2 _ hm1 hm2 rfl rfl]
      exact nonneg_updSet _ _ _
        (nonneg_updAdd _ _ _ h (le_trans (by norm_num) (pontosVencedorCalc_ge_ten _ _)))
        (le_max_left 0 _)

theorem nonneg_foldl (n : Nat) (mapa : List (String × Nat)) (ms : List Partida)
    (st : EstadoDia) (h : ∀ q ∈ st.pontuacoes, 0 ≤ q.2) :
    ∀ q ∈ (ms.foldl (aplicaPartida n mapa) st).pontuacoes, 0 ≤ q.2 := by
  induction ms generalizing st with
  | nil => exact h
  | cons m ms ih =>
    rw [List.foldl_cons]
    exact ih (aplicaPartida n mapa st m) (nonneg_aplicaPartida n mapa st m h)

theorem nonneg_processaDia (n : Nat) (df : List Partida)
    (pont : List (String × Int)) (d : Nat) (h : ∀ q ∈ pont, 0 ≤ q.2) :
    ∀ q ∈ (processaDia n df pont d).pontuacoes, 0 ≤ q.2 := by
  unfold processaDia
  exact nonneg_foldl n _ _ _ h

theorem nonneg_loopDatas (n : Nat) (df : List Partida) (ds : List Nat)
    (pont : List (String × Int)) (h : ∀ q ∈ pont, 0 ≤ q.2) :
    ∀ e ∈ (loopDatas n df ds pont).1, ∀ q ∈ e.2, 0 ≤ q.2 := by
  induction ds generalizing pont with
  | nil => intro e he; exact absurd he (List.not_mem_nil e)
  | cons d ds ih =>
    intro e he q hq
    unfold loopDatas at he
    rcases List.mem_cons.mp he with he | he
    · rw [he] at hq
      have h2 := (sortDesc_perm (processaDia n df pont d).pontuacoes).mem_iff.mp hq
      exact nonneg_processaDia n df pont d h q h2
    · exact ih (processaDia n df pont d).pontuacoes
        (nonneg_processaDia n df pont d h) e he q hq

/-- C2: every ranking snapshot the engine returns contains only non-negative
scores: the initial scores are 1000, each winner update adds a positive gain
to a non-negative score, and each loser update stores `max 0 _`. -/
theorem C2_pontuacoes_nao_negativas (df : List Partida) (d : Nat)
    (snap : List (String × Int)) (j : String) (s : Int)
    (h : (d, snap) ∈ (calculate_rankings df).1) (hm : (j, s) ∈ snap) : 0 ≤ s := by
  unfold calculate_rankings at h
  by_cases hdf : df.isEmpty = true
  · rw [if_pos hdf] at h
    exact absurd h (List.not_mem_nil _)
  · rw [if_neg hdf] at h
    dsimp only at h
    have h0 : ∀ q ∈ ((uniqueFirst (ravelK df)).filterMap id).map
        (fun j => (j, PONTOS_INICIAIS)), 0 ≤ q.2 := by
      intro q hq
      rcases List.mem_map.mp hq with ⟨x, _, he⟩
      rw [← he]
      norm_num [PONTOS_INICIAIS]
    have h2 := nonneg_loopDatas (uniqueFirst (ravelK df)).length df
      (sortAsc (uniqueFirst (df.map (fun m => m.data))))
      (((uniqueFirst (ravelK df)).filterMap id).map (fun j => (j, PONTOS_INICIAIS)))
      h0 (d, snap) h (j, s) hm
    exact h2

/-- Witness for C2 at a concrete one-match table. -/
theorem C2_pontuacoes_nao_negativas_witness : (0 : Int) ≤ 1030 :=
  C2_pontuacoes_nao_negativas [⟨1, 1, some "A", some "B", 11, 5⟩] 1
    [("A", 1030), ("B", 990)] "A" 1030 (by decide) (by decide)

/-! ### The pre-day rank map assigns distinct 1-based ranks -/

theorem rankLookup_cons (e : String × Nat) (es : List (String × Nat))
    (d : Nat) (j : String) :
    rankLookup (e :: es) d j = if e.1 = j then e.2 else rankLookup es d j := by
  by_cases h : e.1 = j
  · simp [rankLookup, List.find?_cons_of_pos, h]
  · simp [rankLookup, List.find?_cons_of_neg, h]

theorem mapaRankingFrom_keys (k : Nat) (l : List (String × Int)) :
    (mapaRankingFrom k l).map Prod.fst = l.map Prod.fst := by
  induction l generalizing k with
  | nil => rfl
  | cons p ps ih =>
    unfold mapaRankingFrom
    rw [List.map_cons, List.map_cons, ih]

theorem mapaRankingFrom_ranks (k : Nat) (l : List (String × Int)) :
    (mapaRankingFrom k l).map Prod.snd = List.range' k l.length := by
  induction l generalizing k with
  | nil => rfl
  | cons p ps ih =>
    unfold mapaRankingFrom
    rw [List.map_cons, List.length_cons, List.range'_succ, ih]

theorem rankLookup_bounds (k d : Nat) (l : List (String × Int)) (j : String)
    (hj : j ∈ l.map Prod.fst) :
    k ≤ rankLookup (mapaRankingFrom k l) d j
    ∧ rankLookup (mapaRankingFrom k l) d j < k + l.length := by
  induction l generalizing k with
  | nil => exact absurd hj (List.not_mem_nil j)
  | cons p ps ih =>
    unfold mapaRankingFrom
    rw [rankLookup_cons]
    by_cases h : p.1 = j
    · simp only [h, if_true, List.length_cons]
      omega
    · rw [List.map_cons] at hj
      rcases List.mem_cons.mp hj with hj | hj
      · exact absurd hj.symm h
      · have hb := ih (k + 1) hj
        simp only [h, if_false, List.length_cons]
        omega

theorem rankLookup_inj (k d : Nat) (l : List (String × Int))
    (hnd : (l.map Prod.fst).Nodup) (j1 j2 : String)
    (h1 : j1 ∈ l.map Prod.fst) (h2 : j2 ∈ l.map Prod.fst) (hne : j1 ≠ j2) :
    rankLookup (mapaRankingFrom k l) d j1 ≠ rankLookup (mapaRankingFrom k l) d j2 := by
  induction l generalizing k with
  | nil => exact absurd h1 (List.not_mem_nil j1)
  | cons p ps ih =>
    rw [List.map_cons] at h1 h2 hnd
    rcases List.nodup_cons.mp hnd with ⟨hp, hnd2⟩
    unfold mapaRankingFrom
    rw [rankLookup_cons, rankLookup_cons]
    by_cases e1 : p.1 = j1
    · have e2 : ¬ p.1 = j2 := fun he => hne (e1.symm.trans he)
      have hj2 : j2 ∈ ps.map Prod.fst := by
        rcases List.mem_cons.mp h2 with hh | hh
        · exact absurd hh.symm e2
        · exact hh
      have hb := rankLookup_bounds (k + 1) d ps j2 hj2
      simp only [e1, if_true, e2, if_false, hne, ite_false]
      omega
    · by_cases e2 : p.1 = j2
      · have hj1 : j1 ∈ ps.map Prod.fst := by
          rcases List.mem_cons.mp h1 with hh | hh
          · exact absurd hh.symm e1
          · exact hh
        have hb := rankLookup_bounds (k + 1) d ps j1 hj1
        have hne2 : ¬ j2 = j1 := fun he => hne he.symm
        simp only [e1, if_false, e2, if_true, hne2, ite_false]
        omega
      · have hj1 : j1 ∈ ps.map Prod.fst := by
          rcases List.mem_cons.mp h1 with hh | hh
          · exact absurd hh.symm e1
          · exact hh
        have hj2 : j2 ∈ ps.map Prod.fst := by
          rcases List.mem_cons.mp h2 with hh | hh
          · exact absurd hh.symm e2
          · exact hh
        simp only [e1, if_false, e2]
        exact ih (k + 1) hnd2 hj1 hj2

/-- C10: the pre-day rank map assigns to the sorted positions exactly the
ranks 1..N, every known player's rank lies in 1..N, and two distinct known
players always receive distinct ranks (so one is always strictly worse),
even when scores are exactly tied. -/
theorem C10_ranks_distintos (pont : List (String × Int)) (deflt : Nat)
    (hnd : (pont.map Prod.fst).Nodup) :
    ((mapaRankingAnterior pont).map Prod.snd = List.range' 1 pont.length)
    ∧ (∀ j ∈ pont.map Prod.fst,
        1 ≤ rankLookup (mapaRankingAnterior pont) deflt j
        ∧ rankLookup (mapaRankingAnterior pont) deflt j ≤ pont.length)
    ∧ (∀ j1 ∈ pont.map Prod.fst, ∀ j2 ∈ pont.map Prod.fst, j1 ≠ j2 →
        rankLookup (mapaRankingAnterior pont) deflt j1
            < rankLookup (mapaRankingAnterior pont) deflt j2
        ∨ rankLookup (mapaRankingAnterior pont) deflt j2
            < rankLookup (mapaRankingAnterior pont) deflt j1) := by
  have hperm : List.Perm ((sortDesc pont).map Prod.fst) (pont.map Prod.fst) :=
    (sortDesc_perm pont).map Prod.fst
  have hlen : (sortDesc pont).length = pont.length :=
    (sortDesc_perm pont).length_eq
  have hnd2 : ((sortDesc pont).map Prod.fst).Nodup := hperm.nodup_iff.mpr hnd
  refine ⟨?_, ?_, ?_⟩
  · unfold mapaRankingAnterior
    rw [mapaRankingFrom_ranks, hlen]
  · intro j hj
    have hj2 : j ∈ (sortDesc pont).map Prod.fst := hperm.mem_iff.mpr hj
    have hb := rankLookup_bounds 1 deflt (sortDesc pont) j hj2
    unfold mapaRankingAnterior
    omega
  · intro j1 hj1 j2 hj2 hne
    have hb := rankLookup_inj 1 deflt (sortDesc pont) hnd2 j1 j2
      (hperm.mem_iff.mpr hj1) (hperm.mem_iff.mpr hj2) hne
    unfold mapaRankingAnterior at *
    omega

/-- Witness for C10 with two players at exactly tied scores. -/
theorem C10_ranks_distintos_witness :
    ((mapaRankingAnterior [("A", 1000), ("B", 1000)]).map Prod.snd
      = List.range' 1 ([("A", 1000), ("B", 1000)] : List (String × Int)).length)
    ∧ (∀ j ∈ ([("A", 1000), ("B", 1000)] : List (String × Int)).map Prod.fst,
        1 ≤ rankLookup (mapaRankingAnterior [("A", 1000), ("B", 1000)]) 3 j
        ∧ rankLookup (mapaRankingAnterior [("A", 1000), ("B", 1000)]) 3 j
            ≤ ([("A", 1000), ("B", 1000)] : List (String × Int)).length)
    ∧ (∀ j1 ∈ ([("A", 1000), ("B", 1000)] : List (String × Int)).map Prod.fst,
        ∀ j2 ∈ ([("A", 1000), ("B", 1000)] : List (String × Int)).map Prod.fst,
        j1 ≠ j2 →
        rankLookup (mapaRankingAnterior [("A", 1000), ("B", 1000)]) 3 j1
            < rankLookup (mapaRankingAnterior [("A", 1000), ("B", 1000)]) 3 j2
        ∨ rankLookup (mapaRankingAnterior [("A", 1000), ("B", 1000)]) 3 j2
            < rankLookup (mapaRankingAnterior [("A", 1000), ("B", 1000)]) 3 j1) :=
  C10_ranks_distintos [("A", 1000), ("B", 1000)] 3 (by decide)

/-! ### Key preservation through the fold, and the daily snapshots -/

theorem vencedorPerdedor_fst (j1 j2 : String) (r1 r2 : Int) (h : r2 < r1) :
    vencedorPerdedor j1 j2 r1 r2 = (j1, j2) := by
  unfold vencedorPerdedor
  simp [h]

theorem vencedorPerdedor_snd (j1 j2 : String) (r1 r2 : Int) (h : ¬ r2 < r1) :
    vencedorPerdedor j1 j2 r1 r2 = (j2, j1) := by
  unfold vencedorPerdedor
  simp [h]

theorem mapSet_keys (l : List (String × Int)) (k : String) (v : Int) :
    (l.map (fun p => if p.1 = k then (p.1, v) else p)).map Prod.fst
      = l.map Prod.fst := by
  induction l with
  | nil => rfl
  | cons p ps ih =>
    rw [List.map_cons, List.map_cons, List.map_cons, ih]
    by_cases h : p.1 = k <;> simp [h]

theorem updSet_keys_of_contem (l : List (String × Int)) (k : String) (v : Int)
    (h : contem l k = true) : (updSet l k v).map Prod.fst = l.map Prod.fst := by
  unfold updSet
  rw [if_pos h]
  exact mapSet_keys l k v

theorem aplicaPartida_keys (n : Nat) (mapa : List (String × Nat)) (st : EstadoDia)
    (m : Partida)
    (h1 : ∀ a, m.jogador1 = some a → contem st.pontuacoes a = true)
    (h2 : ∀ a, m.jogador2 = some a → contem st.pontuacoes a = true) :
    (aplicaPartida n mapa st m).pontuacoes.map Prod.fst
      = st.pontuacoes.map Prod.fst := by
  cases hm1 : m.jogador1 with
  | none => rw [aplicaPartida_ausente n mapa st m (Or.inl hm1)]
  | some j1 =>
    cases hm2 : m.jogador2 with
    | none => rw [aplicaPartida_ausente n mapa st m (Or.inr hm2)]
    | some j2 =>
      by_cases hr : m.resultado2 < m.resultado1
      · rw [aplicaPartida_eq n mapa st m j1 j2 j1 j2 _ hm1 hm2
          (vencedorPerdedor_fst j1 j2 _ _ hr) rfl]
        rw [updSet_keys_of_contem _ _ _
          ((contem_updAdd st.pontuacoes j1 j2 _).trans (h2 j2 hm2))]
        exact updAdd_keys st.pontuacoes j1 _
      · rw [aplicaPartida_eq n mapa st m j1 j2 j2 j1 _ hm1 hm2
          (vencedorPerdedor_snd j1 j2 _ _ hr) rfl]
        rw [updSet_keys_of_contem _ _ _
          ((contem_updAdd st.pontuacoes j2 j1 _).trans (h1 j1 hm1))]
        exact updAdd_keys st.pontuacoes j2 _

theorem foldl_keys (n : Nat) (mapa : List (String × Nat)) (ms : List Partida)
    (st : EstadoDia)
    (h : ∀ m ∈ ms, ∀ a, (m.jogador1 = some a ∨ m.jogador2 = some a) →
      contem st.pontuacoes a = true) :
    (ms.foldl (aplicaPartida n mapa) st).pontuacoes.map Prod.fst
      = st.pontuacoes.map Prod.fst := by
  induction ms generalizing st with
  | nil => rfl
  | cons m ms ih =>
    rw [List.foldl_cons]
    have hm := h m (List.mem_cons_self m ms)
    have hk1 : (aplicaPartida n mapa st m).pontuacoes.map Prod.fst
        = st.pontuacoes.map Prod.fst :=
      aplicaPartida_keys n mapa st m (fun a ha => hm a (Or.inl ha))
        (fun a ha => hm a (Or.inr ha))
    have h2 : ∀ m2 ∈ ms, ∀ a, (m2.jogador1 = some a ∨ m2.jogador2 = some a) →
        contem (aplicaPartida n mapa st m).pontuacoes a = true := by
      intro m2 hm2 a ha
      rw [contem_congr a hk1]
      exact h m2 (List.mem_cons_of_mem m hm2) a ha
    rw [ih (aplicaPartida n mapa st m) h2, hk1]

theorem processaDia_keys (n : Nat) (df : List Partida)
    (pont : List (String × Int)) (d : Nat)
    (h : ∀ m ∈ df, ∀ a, (m.jogador1 = some a ∨ m.jogador2 = some a) →
      contem pont a = true) :
    (processaDia n df pont d).pontuacoes.map Prod.fst = pont.map Prod.fst := by
  unfold processaDia
  apply foldl_keys
  intro m hm a ha
  have hdf : m ∈ df :=
    (List.mem_filter.mp ((ordenaPorId_perm _).mem_iff.mp hm)).1
  exact h m hdf a ha

theorem loopDatas_datas (n : Nat) (df : List Partida) (ds : List Nat)
    (pont : List (String × Int)) :
    (loopDatas n df ds pont).1.map Prod.fst = ds
    ∧ (loopDatas n df ds pont).2.1.map Prod.fst = ds := by
  induction ds generalizing pont with
  | nil => exact ⟨rfl, rfl⟩
  | cons d ds ih =>
    unfold loopDatas
    rcases ih (processaDia n df pont d).pontuacoes with ⟨ih1, ih2⟩
    constructor
    · dsimp only
      rw [List.map_cons, ih1]
    · dsimp only
      rw [List.map_cons, ih2]

theorem loopDatas_snapshots (n : Nat) (df : List Partida) (ds : List Nat)
    (pont : List (String × Int))
    (h : ∀ m ∈ df, ∀ a, (m.jogador1 = some a ∨ m.jogador2 = some a) →
      contem pont a = true) :
    ∀ e ∈ (loopDatas n df ds pont).1,
      List.Pairwise (fun a b : String × Int => b.2 ≤ a.2) e.2
      ∧ List.Perm (e.2.map Prod.fst) (pont.map Prod.fst) := by
  induction ds generalizing pont with
  | nil => intro e he; exact absurd he (List.not_mem_nil e)
  | cons d ds ih =>
    intro e he
    unfold loopDatas at he
    have hkeys : (processaDia n df pont d).pontuacoes.map Prod.fst
        = pont.map Prod.fst := processaDia_keys n df pont d h
    rcases List.mem_cons.mp he with he | he
    · rw [he]
      refine ⟨sortDesc_sorted _, ?_⟩
      have hpm : List.Perm
          ((sortDesc (processaDia n df pont d).pontuacoes).map Prod.fst)
          ((processaDia n df pont d).pontuacoes.map Prod.fst) :=
        (sortDesc_perm _).map Prod.fst
      rw [hkeys] at hpm
      exact hpm
    · have h2 : ∀ m ∈ df, ∀ a, (m.jogador1 = some a ∨ m.jogador2 = some a) →
          contem (processaDia n df pont d).pontuacoes a = true := by
        intro m hm a ha
        rw [contem_congr a hkeys]
        exact h m hm a ha
      have hih := ih (processaDia n df pont d).pontuacoes h2 e he
      rcases hih with ⟨hs, hp⟩
      rw [hkeys] at hp
      exact ⟨hs, hp⟩

theorem mem_ravelK (df : List Partida) (m : Partida) (hm : m ∈ df) :
    m.jogador1 ∈ ravelK df ∧ m.jogador2 ∈ ravelK df := by
  induction df with
  | nil => exact absurd hm (List.not_mem_nil m)
  | cons x xs ih =>
    unfold ravelK
    rw [List.foldr_cons]
    rcases List.mem_cons.mp hm with hm | hm
    · rw [hm]
      exact ⟨List.mem_cons_self _ _,
        List.mem_cons_of_mem _ (List.mem_cons_self _ _)⟩
    · rcases ih hm with ⟨a, b⟩
      exact ⟨List.mem_cons_of_mem _ (List.mem_cons_of_mem _ a),
        List.mem_cons_of_mem _ (List.mem_cons_of_mem _ b)⟩

theorem mem_foldl_uniq {α : Type} [DecidableEq α] (l : List α) (acc : List α)
    (x : α) (h : x ∈ acc ∨ x ∈ l) :
    x ∈ l.foldl (fun acc y => if y ∈ acc then acc else acc ++ [y]) acc := by
  induction l generalizing acc with
  | nil =>
    rcases h with h | h
    · exact h
    · exact absurd h (List.not_mem_nil x)
  | cons y ys ih =>
    rw [List.foldl_cons]
    apply ih
    by_cases hy : y ∈ acc
    · rw [if_pos hy]
      rcases h with h | h
      · exact Or.inl h
      · rcases List.mem_cons.mp h with h | h
        · rw [h]; exact Or.inl hy
        · exact Or.inr h
    · rw [if_neg hy]
      rcases h with h | h
      · exact Or.inl (List.mem_append.mpr (Or.inl h))
      · rcases List.mem_cons.mp h with h | h
        · rw [h]
          exact Or.inl (List.mem_append.mpr (Or.inr (List.mem_singleton.mpr rfl)))
        · exact Or.inr h

theorem mem_uniqueFirst {α : Type} [DecidableEq α] (l : List α) (x : α)
    (h : x ∈ l) : x ∈ uniqueFirst l :=
  mem_foldl_uniq l [] x (Or.inr h)

theorem contem_pont0 (df : List Partida) (m : Partida) (hm : m ∈ df) (a : String)
    (ha : m.jogador1 = some a ∨ m.jogador2 = some a) :
    contem (((uniqueFirst (ravelK df)).filterMap id).map
      (fun j => (j, PONTOS_INICIAIS))) a = true := by
  apply (contem_iff _ _).mpr
  rw [List.map_map]
  have hmem : some a ∈ ravelK df := by
    rcases mem_ravelK df m hm with ⟨hx, hy⟩
    rcases ha with ha | ha
    · rw [ha] at hx; exact hx
    · rw [ha] at hy; exact hy
  have huniq : some a ∈ uniqueFirst (ravelK df) := mem_uniqueFirst _ _ hmem
  have hfm : a ∈ (uniqueFirst (ravelK df)).filterMap id :=
    List.mem_filterMap.mpr ⟨some a, huniq, rfl⟩
  simpa using hfm

/-- C8: every stored daily snapshot is sorted descending by points, lists
exactly the full player universe, and the daily-rankings and daily-deltas
collections are keyed by exactly the same dates (in the same order). -/
theorem C8_instantaneos (df : List Partida) (d : Nat) (snap : List (String × Int))
    (h : (d, snap) ∈ (calculate_rankings df).1) :
    List.Pairwise (fun a b : String × Int => b.2 ≤ a.2) snap
    ∧ List.Perm (snap.map Prod.fst) ((uniqueFirst (ravelK df)).filterMap id)
    ∧ (calculate_rankings df).1.map Prod.fst
      = (calculate_rankings df).2.1.map Prod.fst := by
  unfold calculate_rankings at h ⊢
  by_cases hdf : df.isEmpty = true
  · rw [if_pos hdf] at h
    exact absurd h (List.not_mem_nil _)
  · rw [if_neg hdf] at h ⊢
    dsimp only at h ⊢
    have hpart : ∀ m ∈ df, ∀ a, (m.jogador1 = some a ∨ m.jogador2 = some a) →
        contem (((uniqueFirst (ravelK df)).filterMap id).map
          (fun j => (j, PONTOS_INICIAIS))) a = true :=
      fun m hm a ha => contem_pont0 df m hm a ha
    have hsnap := loopDatas_snapshots (uniqueFirst (ravelK df)).length df
      (sortAsc (uniqueFirst (df.map (fun m => m.data))))
      (((uniqueFirst (ravelK df)).filterMap id).map (fun j => (j, PONTOS_INICIAIS)))
      hpart (d, snap) h
    rcases hsnap with ⟨hs, hp⟩
    refine ⟨hs, ?_, ?_⟩
    · have hkeys : ((((uniqueFirst (ravelK df)).filterMap id).map
          (fun j => (j, PONTOS_INICIAIS))).map Prod.fst)
          = (uniqueFirst (ravelK df)).filterMap id := by
        rw [List.map_map]
        have hc : (Prod.fst ∘ fun j : String => (j, PONTOS_INICIAIS)) = id := rfl
        rw [hc, List.map_id]
      rw [hkeys] at hp
      exact hp
    · rcases loopDatas_datas (uniqueFirst (ravelK df)).length df
        (sortAsc (uniqueFirst (df.map (fun m => m.data))))
        (((uniqueFirst (ravelK df)).filterMap id).map (fun j => (j, PONTOS_INICIAIS)))
        with ⟨h1, h2⟩
      rw [h1, h2]

/-- Witness for C8 at a concrete two-day table. -/
theorem C8_instantaneos_witness :
    List.Pairwise (fun a b : String × Int => b.2 ≤ a.2) [("A", 1030), ("B", 990)]
    ∧ List.Perm ((([("A", 1030), ("B", 990)] : List (String × Int)).map Prod.fst))
        ((uniqueFirst (ravelK [⟨1, 1, some "A", some "B", 11, 5⟩])).filterMap id)
    ∧ (calculate_rankings [⟨1, 1, some "A", some "B", 11, 5⟩]).1.map Prod.fst
      = (calculate_rankings [⟨1, 1, some "A", some "B", 11, 5⟩]).2.1.map Prod.fst :=
  C8_instantaneos [⟨1, 1, some "A", some "B", 11, 5⟩] 1 [("A", 1030), ("B", 990)]
    (by decide)

/-! ### Per-day deltas decompose over the fixed pre-day rank map -/

theorem lookupD_updAdd_eq (l : List (String × Int)) (k j : String) (v d : Int)
    (hkj : k = j) (h : contem l j = true) :
    lookupD (updAdd l k v) j d = lookupD l j d + v := by
  subst hkj
  exact lookupD_updAdd_self l k v d h

theorem ganhos_upd (g : List (String × Int)) (v p j : String) (pv pp : Int)
    (hj : contem g j = true) :
    lookupD (updAdd (updAdd g v pv) p pp) j 0
      = lookupD g j 0 + ((if v = j then pv else 0) + (if p = j then pp else 0)) := by
  by_cases hpj : p = j
  · rw [lookupD_updAdd_eq _ p j pp 0 hpj ((contem_updAdd g v j pv).trans hj)]
    by_cases hvj : v = j
    · rw [lookupD_updAdd_eq _ v j pv 0 hvj hj, if_pos hvj, if_pos hpj]
      omega
    · rw [lookupD_updAdd_ne _ v j pv 0 (fun he => hvj he.symm), if_neg hvj,
        if_pos hpj]
      omega
  · rw [lookupD_updAdd_ne _ p j pp 0 (fun he => hpj he.symm)]
    by_cases hvj : v = j
    · rw [lookupD_updAdd_eq _ v j pv 0 hvj hj, if_pos hvj, if_neg hpj]
      omega
    · rw [lookupD_updAdd_ne _ v j pv 0 (fun he => hvj he.symm), if_neg hvj,
        if_neg hpj]
      omega

theorem contribuicaoGanho_eq (n : Nat) (mapa : List (String × Nat)) (j : String)
    (m : Partida) (j1 j2 v p : String)
    (h1 : m.jogador1 = some j1) (h2 : m.jogador2 = some j2)
    (hvp : vencedorPerdedor j1 j2 m.resultado1 m.resultado2 = (v, p)) :
    contribuicaoGanho n mapa j m =
      (if v = j then
        pontosVencedorCalc (rankLookup mapa (n + 1) v) (rankLookup mapa (n + 1) p)
       else 0) + (if p = j then PONTOS_DERROTA else 0) := by
  unfold contribuicaoGanho
  rw [h1, h2]
  dsimp only
  rw [hvp]

theorem contribuicao_step (n : Nat) (mapa : List (String × Nat)) (st : EstadoDia)
    (m : Partida) (j : String) (hj : contem st.pontosGanhosDia j = true) :
    lookupD (aplicaPartida n mapa st m).pontosGanhosDia j 0
      = lookupD st.pontosGanhosDia j 0 + contribuicaoGanho n mapa j m
    ∧ contem (aplicaPartida n mapa st m).pontosGanhosDia j = true := by
  cases hm1 : m.jogador1 with
  | none =>
    rw [aplicaPartida_ausente n mapa st m (Or.inl hm1)]
    have hc : contribuicaoGanho n mapa j m = 0 := by
      unfold contribuicaoGanho
      rw [hm1]
    rw [hc]
    exact ⟨by omega, hj⟩
  | some j1 =>
    cases hm2 : m.jogador2 with
    | none =>
      rw [aplicaPartida_ausente n mapa st m (Or.inr hm2)]
      have hc : contribuicaoGanho n mapa j m = 0 := by
        unfold contribuicaoGanho
        rw [hm1, hm2]
      rw [hc]
      exact ⟨by omega, hj⟩
    | some j2 =>
      by_cases hr : m.resultado2 < m.resultado1
      · rw [aplicaPartida_eq n mapa st m j1 j2 j1 j2 _ hm1 hm2
          (vencedorPerdedor_fst j1 j2 _ _ hr) rfl,
          contribuicaoGanho_eq n mapa j m j1 j2 j1 j2 hm1 hm2
          (vencedorPerdedor_fst j1 j2 _ _ hr)]
        dsimp only
        refine ⟨ganhos_upd st.pontosGanhosDia j1 j2 j _ _ hj, ?_⟩
        rw [contem_updAdd, contem_updAdd]
        exact hj
      · rw [aplicaPartida_eq n mapa st m j1 j2 j2 j1 _ hm1 hm2
          (vencedorPerdedor_snd j1 j2 _ _ hr) rfl,
          contribuicaoGanho_eq n mapa j m j1 j2 j2 j1 hm1 hm2
          (vencedorPerdedor_snd j1 j2 _ _ hr)]
        dsimp only
        refine ⟨ganhos_upd st.pontosGanhosDia j2 j1 j _ _ hj, ?_⟩
        rw [contem_updAdd, contem_updAdd]
        exact hj

theorem contribuicao_foldl (n : Nat) (mapa : List (String × Nat))
    (ms : List Partida) (st : EstadoDia) (j : String)
    (hj : contem st.pontosGanhosDia j = true) :
    lookupD ((ms.foldl (aplicaPartida n mapa) st).pontosGanhosDia) j 0
      = lookupD st.pontosGanhosDia j 0
        + (ms.map (contribuicaoGanho n mapa j)).sum := by
  induction ms generalizing st with
  | nil => simp
  | cons m ms ih =>
    rw [List.foldl_cons, List.map_cons, List.sum_cons]
    rcases contribuicao_step n mapa st m j hj with ⟨h1, h2⟩
    rw [ih (aplicaPartida n mapa st m) h2, h1]
    omega

theorem lookupD_zeros (pont : List (String × Int)) (j : String) :
    lookupD (pont.map (fun p => (p.1, (0 : Int)))) j 0 = 0 := by
  induction pont with
  | nil => rfl
  | cons p ps ih =>
    rw [List.map_cons, lookupD_cons]
    by_cases h : p.1 = j <;> simp [h, ih]

theorem contem_zeros (pont : List (String × Int)) (j : String) :
    contem (pont.map (fun p => (p.1, (0 : Int)))) j = contem pont j := by
  apply contem_congr
  rw [List.map_map]
  rfl

/-- C3: the day's matches are processed in ascending order of match id (the
processed sequence is an id-sorted permutation of that day's rows), and the
per-day delta of every known player decomposes as a sum of per-match
contributions all computed from the single pre-day rank map
`mapaRankingAnterior pont` — the rank map is not updated between matches of
one day. -/
theorem C3_mapa_pre_dia (n : Nat) (df : List Partida) (pont : List (String × Int))
    (d : Nat) (j : String) (hj : contem pont j = true) :
    List.Pairwise (fun a b : Partida => a.idPartida ≤ b.idPartida)
      (ordenaPorId (df.filter (fun m => m.data = d)))
    ∧ List.Perm (ordenaPorId (df.filter (fun m => m.data = d)))
        (df.filter (fun m => m.data = d))
    ∧ lookupD (processaDia n df pont d).pontosGanhosDia j 0
      = ((ordenaPorId (df.filter (fun m => m.data = d))).map
          (contribuicaoGanho n (mapaRankingAnterior pont) j)).sum := by
  refine ⟨ordenaPorId_sorted _, ordenaPorId_perm _, ?_⟩
  unfold processaDia
  have hz : contem (pont.map (fun p => (p.1, (0 : Int)))) j = true :=
    (contem_zeros pont j).trans hj
  rw [contribuicao_foldl n (mapaRankingAnterior pont) _
    ⟨pont, pont.map (fun p => (p.1, (0 : Int)))⟩ j hz]
  dsimp only
  rw [lookupD_zeros]
  omega

/-- Witness for C3 at a concrete two-match day. -/
theorem C3_mapa_pre_dia_witness :
    List.Pairwise (fun a b : Partida => a.idPartida ≤ b.idPartida)
      (ordenaPorId (([⟨2, 1, some "C", some "A", 3, 11⟩,
        ⟨1, 1, some "A", some "B", 11, 5⟩] : List Partida).filter
        (fun m => m.data = 1)))
    ∧ List.Perm (ordenaPorId (([⟨2, 1, some "C", some "A", 3, 11⟩,
        ⟨1, 1, some "A", some "B", 11, 5⟩] : List Partida).filter
        (fun m => m.data = 1)))
        (([⟨2, 1, some "C", some "A", 3, 11⟩,
          ⟨1, 1, some "A", some "B", 11, 5⟩] : List Partida).filter
          (fun m => m.data = 1))
    ∧ lookupD (processaDia 3 [⟨2, 1, some "C", some "A", 3, 11⟩,
        ⟨1, 1, some "A", some "B", 11, 5⟩]
        [("A", 1000), ("B", 1000), ("C", 1000)] 1).pontosGanhosDia "A" 0
      = ((ordenaPorId (([⟨2, 1, some "C", some "A", 3, 11⟩,
          ⟨1, 1, some "A", some "B", 11, 5⟩] : List Partida).filter
          (fun m => m.data = 1))).map
          (contribuicaoGanho 3
            (mapaRankingAnterior [("A", 1000), ("B", 1000), ("C", 1000)]) "A")).sum :=
  C3_mapa_pre_dia 3 [⟨2, 1, some "C", some "A", 3, 11⟩,
    ⟨1, 1, some "A", some "B", 11, 5⟩]
    [("A", 1000), ("B", 1000), ("C", 1000)] 1 "A" (by decide)
